import Mathlib

/-!
Shallow embedding of `src/drivers/dw-dma.c` (DesignWare DMA driver core):
channel pool, descriptor-chain builder, start/stop/drain, drain poller and
interrupt dispatcher, together with theorems checking the specification's
claims about them.

Hardware registers are identified by their byte offset from the device base
(the `dma_base(dma)` summand of the source is a constant and is elided);
register writes and `update_bits` operations are recorded as explicit lists
so that theorems can speak about which registers an operation touches.
Machine integers are modelled as `Nat`, with explicit `% 2 ^ 32` where a C
cast truncates a pointer to `uint32_t`.
-/

/-- Bit mask of the low `w` bits, `2 ^ w - 1`. -/
def maskW (w : Nat) : Nat := 2 ^ w - 1

/-- C expression `x & ~m` on a `w`-bit integer (for masks `m < 2 ^ w`). -/
def clearBits (w x m : Nat) : Nat := x &&& (maskW w ^^^ m)

/-- Semantics of `io_reg_update_bits(addr, mask, value)` on one 32-bit
register value: `reg = (reg & ~mask) | (value & mask)`. -/
def updateBits32 (v mask val : Nat) : Nat := clearBits 32 v mask ||| (val &&& mask)

/- Register offsets and channel bits, transcribed from the macro block of
`src/drivers/dw-dma.c`. -/

def DW_MAX_CHAN : Nat := 8

def DW_CH_SIZE : Nat := 0x58

def BYT_CHAN_OFFSET (chan : Nat) : Nat := DW_CH_SIZE * chan

def DW_SAR (chan : Nat) : Nat := 0x0000 + BYT_CHAN_OFFSET chan

def DW_DAR (chan : Nat) : Nat := 0x0008 + BYT_CHAN_OFFSET chan

def DW_LLP (chan : Nat) : Nat := 0x0010 + BYT_CHAN_OFFSET chan

def DW_CTRL_LOW (chan : Nat) : Nat := 0x0018 + BYT_CHAN_OFFSET chan

def DW_CTRL_HIGH (chan : Nat) : Nat := 0x001C + BYT_CHAN_OFFSET chan

def DW_CFG_LOW (chan : Nat) : Nat := 0x0040 + BYT_CHAN_OFFSET chan

def DW_CFG_HIGH (chan : Nat) : Nat := 0x0044 + BYT_CHAN_OFFSET chan

def DW_STATUS_BLOCK : Nat := 0x02F0

def DW_MASK_TFR : Nat := 0x0310

def DW_MASK_BLOCK : Nat := 0x0318

def DW_MASK_SRC_TRAN : Nat := 0x0320

def DW_MASK_DST_TRAN : Nat := 0x0328

def DW_MASK_ERR : Nat := 0x0330

def DW_CLEAR_TFR : Nat := 0x0338

def DW_CLEAR_BLOCK : Nat := 0x0340

def DW_CLEAR_SRC_TRAN : Nat := 0x0348

def DW_CLEAR_DST_TRAN : Nat := 0x0350

def DW_CLEAR_ERR : Nat := 0x0358

def DW_DMA_CHAN_EN : Nat := 0x03A0

def INT_MASK (chan : Nat) : Nat := 0x100 <<< chan

def INT_UNMASK (chan : Nat) : Nat := 0x101 <<< chan

def CHAN_ENABLE (chan : Nat) : Nat := 0x101 <<< chan

def CHAN_DISABLE (chan : Nat) : Nat := 0x100 <<< chan

def DW_CFG_CH_SUSPEND : Nat := 0x100

def DW_CFG_CH_DRAIN : Nat := 0x400

def DW_CFG_CH_FIFO_EMPTY : Nat := 0x200

/-- Modelled from the spec: the header `reef/dma.h` that defines the channel
states is not part of the repository.  The spec (§3, §4.3) names the four
states `Free, Idle, Running, Draining`; the code compares `status` with `==`
against `FREE`/`DRAINING` in `channel_get` but also treats `DRAINING` as a
bit (`status & DMA_STATUS_DRAINING`, `status &= ~DMA_STATUS_DRAINING` in
`fifo_work`), so `DRAINING` is modelled as a single bit disjoint from the
other values. -/
def DMA_STATUS_FREE : Nat := 0

/-- Modelled from the spec: see `DMA_STATUS_FREE`. -/
def DMA_STATUS_IDLE : Nat := 1

/-- Modelled from the spec: see `DMA_STATUS_FREE`. -/
def DMA_STATUS_RUNNING : Nat := 2

/-- Modelled from the spec: see `DMA_STATUS_FREE`; a single bit so that
`status & DMA_STATUS_DRAINING` and `status &= ~DMA_STATUS_DRAINING` in the
drain poller behave as the code intends. -/
def DMA_STATUS_DRAINING : Nat := 4

/-- Modelled from the spec: `reef/dma.h` is not in the repository; the spec
(§3) names four transfer directions.  Only distinctness of the four values
matters to the driver's `switch`. -/
def DMA_DIR_MEM_TO_MEM : Nat := 0

/-- Modelled from the spec: see `DMA_DIR_MEM_TO_MEM`. -/
def DMA_DIR_MEM_TO_DEV : Nat := 1

/-- Modelled from the spec: see `DMA_DIR_MEM_TO_MEM`. -/
def DMA_DIR_DEV_TO_MEM : Nat := 2

/-- Modelled from the spec: see `DMA_DIR_MEM_TO_MEM`. -/
def DMA_DIR_DEV_TO_DEV : Nat := 3

/-- Modelled from the spec: the header `reef/dw-dma.h` defining the
control-word macros is not in the repository.  The spec (§6) describes the
control-low word as carrying a flow-control field, source/destination width
fields, source/destination burst-size fields, source/destination
increment-vs-fixed flags and source/destination link-chain-enable flags;
each is modelled in its own disjoint bit field. -/
def DWC_CTLL_FC (d : Nat) : Nat := (d &&& 0x3) <<< 20

/-- Modelled from the spec: destination transfer-width field, see
`DWC_CTLL_FC`. -/
def DWC_CTLL_DST_WIDTH (w : Nat) : Nat := (w &&& 0x7) <<< 1

/-- Modelled from the spec: source transfer-width field, see `DWC_CTLL_FC`. -/
def DWC_CTLL_SRC_WIDTH (w : Nat) : Nat := (w &&& 0x7) <<< 4

/-- Modelled from the spec: destination burst-size field, see `DWC_CTLL_FC`. -/
def DWC_CTLL_DST_MSIZE (s : Nat) : Nat := (s &&& 0x7) <<< 11

/-- Modelled from the spec: source burst-size field, see `DWC_CTLL_FC`. -/
def DWC_CTLL_SRC_MSIZE (s : Nat) : Nat := (s &&& 0x7) <<< 14

/-- Modelled from the spec: destination increment-addressing flag, a
distinct nonzero bit, see `DWC_CTLL_FC`. -/
def DWC_CTLL_DST_INC : Nat := 1 <<< 7

/-- Modelled from the spec: destination fixed-addressing flag, see
`DWC_CTLL_FC`. -/
def DWC_CTLL_DST_FIX : Nat := 1 <<< 8

/-- Modelled from the spec: source increment-addressing flag, see
`DWC_CTLL_FC`. -/
def DWC_CTLL_SRC_INC : Nat := 1 <<< 9

/-- Modelled from the spec: source fixed-addressing flag, see
`DWC_CTLL_FC`. -/
def DWC_CTLL_SRC_FIX : Nat := 1 <<< 10

/-- Modelled from the spec: destination link-chain-enable flag, see
`DWC_CTLL_FC`. -/
def DWC_CTLL_LLP_D_EN : Nat := 1 <<< 27

/-- Modelled from the spec: source link-chain-enable flag, see
`DWC_CTLL_FC`. -/
def DWC_CTLL_LLP_S_EN : Nat := 1 <<< 28

/-- Modelled from the spec: the "done" flag of the control-high word,
cleared for the lead descriptor (§4.2). -/
def DWC_CTLH_DONE : Nat := 1 <<< 12

/-- Modelled from the spec: auto-reload-source flag of the channel's
config-low shadow, cleared when the last descriptor is built (§4.2). -/
def DWC_CFGL_RELOAD_SAR : Nat := 1 <<< 30

/-- Modelled from the spec: auto-reload-destination flag, see
`DWC_CFGL_RELOAD_SAR`. -/
def DWC_CFGL_RELOAD_DAR : Nat := 1 <<< 31

/-- Modelled from the spec: source peripheral-id field of the config-high
word (§4.2, §6). -/
def DWC_CFGH_SRC_PER (p : Nat) : Nat := (p &&& 0xf) <<< 7

/-- Modelled from the spec: destination peripheral-id field, see
`DWC_CFGH_SRC_PER`. -/
def DWC_CFGH_DST_PER (p : Nat) : Nat := (p &&& 0xf) <<< 11

/-- Modelled from the spec: `struct dw_lli1` is declared in the missing
header `reef/dw-dma.h`; the driver reads/writes exactly these five 32-bit
fields (`sar`, `dar`, `llp`, `ctrl_lo`, `ctrl_hi`), so its size is five
32-bit words. -/
def DW_LLI_SIZE : Nat := 20

/-- Address of descriptor number `k` inside a chain allocated at `base`:
the C pointer arithmetic `lli + k` cast to `uint32_t`. -/
def lliAddr (base k : Nat) : Nat := (base + k * DW_LLI_SIZE) % 2 ^ 32

/-- One hardware descriptor (`struct dw_lli1`), the five fields the driver
touches. -/
structure DwLli1 where
  sar : Nat
  dar : Nat
  llp : Nat
  ctrl_lo : Nat
  ctrl_hi : Nat
deriving DecidableEq

/-- Per-channel driver state, `struct dma_chan_data`.  The attached chain
`lli` carries both the allocation base address and the descriptor contents;
`none` models a NULL chain pointer.  The callback `cb` is an opaque handle,
`none` modelling NULL. -/
structure DmaChanData where
  status : Nat
  lli : Option (Nat × List DwLli1)
  desc_count : Nat
  cfg_lo : Nat
  cfg_hi : Nat
  cb : Option Nat
  cb_data : Nat
deriving DecidableEq

/-- A channel slot as `dw_dma_probe` leaves it: `bzero`-ed private data. -/
def freshChan : DmaChanData :=
  { status := DMA_STATUS_FREE, lli := none, desc_count := 0,
    cfg_lo := 0, cfg_hi := 0, cb := none, cb_data := 0 }

/-- Result of `dw_dma_channel_get`: the updated pool, the
`io_reg_write (offset, value)` list it performed, and the C return value. -/
structure ChannelGetResult where
  chans : List DmaChanData
  writes : List (Nat × Nat)
  ret : Int
deriving DecidableEq

/-- The five interrupt-clear writes `channel_get` performs for channel `i`:
ClearTfr, ClearBlock, ClearSrcTran, ClearDstTran, ClearErr, each with value
`0x1 << i`. -/
def clearWrites (i : Nat) : List (Nat × Nat) :=
  [(DW_CLEAR_TFR, 1 <<< i), (DW_CLEAR_BLOCK, 1 <<< i),
   (DW_CLEAR_SRC_TRAN, 1 <<< i), (DW_CLEAR_DST_TRAN, 1 <<< i),
   (DW_CLEAR_ERR, 1 <<< i)]

/-- The scan loop of `dw_dma_channel_get`, over the remaining slots, with
`i` the index of the first slot in the list.  A slot in `DRAINING` is
skipped; the first slot in `FREE` is set to `IDLE`, the five clear
registers are written and its index is returned; if the scan exhausts the
pool the C function returns `-ENODEV` (`ENODEV = 19` from `errno.h`). -/
def channelGetAux : List DmaChanData → Nat → ChannelGetResult
  | [], _ => ⟨[], [], -19⟩
  | c :: rest, i =>
    if c.status = DMA_STATUS_DRAINING then
      let r := channelGetAux rest (i + 1)
      ⟨c :: r.chans, r.writes, r.ret⟩
    else if c.status = DMA_STATUS_FREE then
      ⟨{ c with status := DMA_STATUS_IDLE } :: rest, clearWrites i, Int.ofNat i⟩
    else
      let r := channelGetAux rest (i + 1)
      ⟨c :: r.chans, r.writes, r.ret⟩

/-- `dw_dma_channel_get`: allocate the next free DMA channel.  The pool
list stands for the `DW_MAX_CHAN`-slot array `p->chan`. -/
def dw_dma_channel_get (chans : List DmaChanData) : ChannelGetResult :=
  channelGetAux chans 0

/-- `dw_dma_channel_put`: reset the state to `FREE` and clear the callback
pointer.  Nothing else is touched (the chain, callback data and descriptor
count remain). -/
def dw_dma_channel_put (ch : DmaChanData) : DmaChanData :=
  { ch with status := DMA_STATUS_FREE, cb := none }

/-- Result of `dw_dma_stop` / `dw_dma_drain`: the updated channel, the
`io_reg_update_bits (offset, mask, value)` list performed, the delay passed
to `work_schedule_default`, and the C return value. -/
structure StopResult where
  chan : DmaChanData
  updates : List (Nat × Nat × Nat)
  delay : Nat
  ret : Int
deriving DecidableEq

/-- `dw_dma_stop`: suspend the channel (set the suspend bit of its
config-low register), mark it `DRAINING` and schedule the drain work with
delay 1. -/
def dw_dma_stop (channel : Nat) (ch : DmaChanData) : StopResult :=
  { chan := { ch with status := DMA_STATUS_DRAINING },
    updates := [(DW_CFG_LOW channel, DW_CFG_CH_SUSPEND, DW_CFG_CH_SUSPEND)],
    delay := 1,
    ret := 0 }

/-- `dw_dma_drain`: as `dw_dma_stop` but sets both the suspend and the
drain bits of the channel's config-low register. -/
def dw_dma_drain (channel : Nat) (ch : DmaChanData) : StopResult :=
  { chan := { ch with status := DMA_STATUS_DRAINING },
    updates := [(DW_CFG_LOW channel,
                 DW_CFG_CH_SUSPEND ||| DW_CFG_CH_DRAIN,
                 DW_CFG_CH_SUSPEND ||| DW_CFG_CH_DRAIN)],
    delay := 1,
    ret := 0 }

/-- One scatter-gather element of a transfer request
(`struct dma_sg_elem`): source and destination pointers. -/
structure DmaSgElem where
  src : Nat
  dest : Nat
deriving DecidableEq

/-- A transfer request (`struct dma_sg_config`): one direction and width
pair for the whole request plus the ordered segment list. -/
structure DmaSgConfig where
  direction : Nat
  src_width : Nat
  dest_width : Nat
  elem_list : List DmaSgElem
deriving DecidableEq

/-- The `SINC`/`DINC` flags the `switch (config->direction)` of
`dw_dma_set_config` ORs into the first descriptor's control-low word; the
`default` branch adds nothing. -/
def dirCtlFlags (dir : Nat) : Nat :=
  if dir = DMA_DIR_MEM_TO_MEM then DWC_CTLL_SRC_INC ||| DWC_CTLL_DST_INC
  else if dir = DMA_DIR_MEM_TO_DEV then DWC_CTLL_SRC_INC ||| DWC_CTLL_DST_FIX
  else if dir = DMA_DIR_DEV_TO_MEM then DWC_CTLL_SRC_FIX ||| DWC_CTLL_DST_INC
  else if dir = DMA_DIR_DEV_TO_DEV then DWC_CTLL_SRC_FIX ||| DWC_CTLL_DST_FIX
  else 0

/-- The peripheral-id updates the same `switch` ORs into the channel's
config-high shadow (ids hardcoded to zero in the source). -/
def cfgHiAfter (cfg_hi dir : Nat) : Nat :=
  if dir = DMA_DIR_MEM_TO_DEV then cfg_hi ||| DWC_CFGH_DST_PER 0
  else if dir = DMA_DIR_DEV_TO_MEM then cfg_hi ||| DWC_CFGH_SRC_PER 0
  else if dir = DMA_DIR_DEV_TO_DEV then
    cfg_hi ||| DWC_CFGH_SRC_PER 0 ||| DWC_CFGH_DST_PER 0
  else cfg_hi

/-- The writes `dw_dma_set_config` performs on the first descriptor before
entering its fill loop: OR the flow-control, width, burst-size and
addressing flags into `ctrl_lo` and clear the done bit of `ctrl_hi`. -/
def headDesc (d0 : DwLli1) (cfg : DmaSgConfig) : DwLli1 :=
  { d0 with
    ctrl_lo := d0.ctrl_lo ||| DWC_CTLL_FC cfg.direction
      ||| DWC_CTLL_SRC_WIDTH cfg.src_width ||| DWC_CTLL_DST_WIDTH cfg.dest_width
      ||| DWC_CTLL_SRC_MSIZE 0 ||| DWC_CTLL_DST_MSIZE 0 ||| dirCtlFlags cfg.direction,
    ctrl_hi := clearBits 32 d0.ctrl_hi DWC_CTLH_DONE }

/-- A non-last loop iteration of `dw_dma_set_config`: store the segment's
addresses, point `llp` at the next descriptor and set both
link-chain-enable flags. -/
def descLinked (d : DwLli1) (e : DmaSgElem) (next : Nat) : DwLli1 :=
  { d with
    sar := e.src % 2 ^ 32
    dar := e.dest % 2 ^ 32
    llp := next
    ctrl_lo := d.ctrl_lo ||| (DWC_CTLL_LLP_S_EN ||| DWC_CTLL_LLP_D_EN) }

/-- The last loop iteration of `dw_dma_set_config`: store the segment's
addresses, terminate `llp` with 0 and clear both link-chain-enable flags. -/
def descLast (d : DwLli1) (e : DmaSgElem) : DwLli1 :=
  { d with
    sar := e.src % 2 ^ 32
    dar := e.dest % 2 ^ 32
    llp := 0
    ctrl_lo := clearBits 32 d.ctrl_lo (DWC_CTLL_LLP_S_EN ||| DWC_CTLL_LLP_D_EN) }

/-- The `list_for_each_safe` fill loop of `dw_dma_set_config`: descriptor
number `k` (absolute index in the allocation, initial contents `mem k`) is
populated from the `k`-th segment; every iteration except the last links to
the next descriptor's address. -/
def fillLli (base : Nat) (mem : Nat → DwLli1) :
    List DmaSgElem → Nat → List DwLli1
  | [], _ => []
  | e :: rest, k =>
    (match rest with
     | [] => descLast (mem k) e
     | _ :: _ => descLinked (mem k) e (lliAddr base (k + 1))) ::
    fillLli base mem rest (k + 1)

/-- `dw_dma_set_config`: count the request's segments onto the channel's
running `desc_count`, allocate a chain of `desc_count` descriptors, write
the header fields into the first descriptor, then fill one descriptor per
segment.

`alloc` models the `rmalloc` call: `some base` is a successful allocation
at address `base`, `none` a NULL return.  The source never checks the
result; on `none` it stores the NULL pointer as the channel's chain and
then dereferences it, which this embedding models as the whole call having
no defined result (`none`).  `init` gives the (uninitialized) contents
`rmalloc` left in descriptor slot `k`. -/
def dw_dma_set_config (ch : DmaChanData) (cfg : DmaSgConfig)
    (alloc : Option Nat) (init : Nat → DwLli1) :
    Option (DmaChanData × Int) :=
  let n := ch.desc_count + cfg.elem_list.length
  match alloc with
  | none => none
  | some base =>
    let mem : Nat → DwLli1 :=
      fun k => if k = 0 then headDesc (init 0) cfg else init k
    let arr := fillLli base mem cfg.elem_list 0 ++
      (List.range (n - cfg.elem_list.length)).map
        (fun j => mem (cfg.elem_list.length + j))
    let cfg_lo' := match cfg.elem_list with
      | [] => ch.cfg_lo
      | _ :: _ =>
        clearBits 32 ch.cfg_lo (DWC_CFGL_RELOAD_SAR ||| DWC_CFGL_RELOAD_DAR)
    some ({ ch with
            desc_count := n
            lli := some (base, arr)
            cfg_lo := cfg_lo'
            cfg_hi := cfgHiAfter ch.cfg_hi cfg.direction }, 0)

/-- Result of `dw_dma_start`: the updated channel and the
`io_reg_write (offset, value)` list, in program order, plus the C return
value. -/
structure StartResult where
  chan : DmaChanData
  writes : List (Nat × Nat)
  ret : Int
deriving DecidableEq

/-- `dw_dma_start`: program SAR/DAR/LLP and CTL/CFG from the chain head and
the channel shadow, mark the channel `RUNNING`, unmask its five interrupt
classes and set its enable bit.  The chain pointer is dereferenced without
a check: with no attached chain (`lli = none`, the NULL pointer) or an
empty allocation the read of `lli->sar` is undefined behaviour, modelled as
`none`. -/
def dw_dma_start (channel : Nat) (ch : DmaChanData) : Option StartResult :=
  match ch.lli with
  | none => none
  | some (_, arr) =>
    match arr.head? with
    | none => none
    | some d =>
      some
        { chan := { ch with status := DMA_STATUS_RUNNING },
          writes :=
            [(DW_SAR channel, d.sar), (DW_DAR channel, d.dar),
             (DW_LLP channel, d.llp),
             (DW_CTRL_LOW channel, d.ctrl_lo), (DW_CTRL_HIGH channel, d.ctrl_hi),
             (DW_CFG_LOW channel, ch.cfg_lo), (DW_CFG_HIGH channel, ch.cfg_hi),
             (DW_MASK_TFR, INT_UNMASK channel), (DW_MASK_BLOCK, INT_UNMASK channel),
             (DW_MASK_SRC_TRAN, INT_UNMASK channel),
             (DW_MASK_DST_TRAN, INT_UNMASK channel),
             (DW_MASK_ERR, INT_UNMASK channel),
             (DW_DMA_CHAN_EN, CHAN_ENABLE channel)],
          ret := 0 }

/-- Result of `dw_dma_fifo_work`: the updated pool, the register offsets it
read, the `io_reg_update_bits (offset, mask, value)` list it performed, and
the C return value (1 = reschedule in 1 msec, 0 = done). -/
structure FifoWorkResult where
  chans : List DmaChanData
  reads : List Nat
  updates : List (Nat × Nat × Nat)
  ret : Nat
deriving DecidableEq

/-- The scan loop of `dw_dma_fifo_work` over the remaining slots (`i` the
index of the first, `regs` the hardware register file it reads, `sched`
the current value of the local variable `schedule`).  A draining channel
whose FIFO is empty is disabled and its `DRAINING` bit cleared; one whose
FIFO is not yet empty sets `schedule = 1`. -/
def fifoWorkAux (regs : Nat → Nat) :
    List DmaChanData → Nat → Nat → FifoWorkResult
  | [], _, sched => ⟨[], [], [], sched⟩
  | c :: rest, i, sched =>
    if c.status &&& DMA_STATUS_DRAINING = 0 then
      let r := fifoWorkAux regs rest (i + 1) sched
      ⟨c :: r.chans, r.reads, r.updates, r.ret⟩
    else if regs (DW_CFG_LOW i) &&& DW_CFG_CH_FIFO_EMPTY ≠ 0 then
      let r := fifoWorkAux regs rest (i + 1) sched
      ⟨{ c with status := clearBits 8 c.status DMA_STATUS_DRAINING } :: r.chans,
       DW_CFG_LOW i :: r.reads,
       (DW_DMA_CHAN_EN, CHAN_DISABLE i, CHAN_DISABLE i) :: r.updates,
       r.ret⟩
    else
      let r := fifoWorkAux regs rest (i + 1) 1
      ⟨c :: r.chans, DW_CFG_LOW i :: r.reads, r.updates, r.ret⟩

/-- `dw_dma_fifo_work`: the drain poller.  The local variable `schedule`
is declared without an initializer in the source; `sched0` models the
stack garbage it holds on entry.  The function returns 1 (reschedule) when
the final value of `schedule` is truthy and 0 otherwise. -/
def dw_dma_fifo_work (regs : Nat → Nat) (chans : List DmaChanData)
    (sched0 : Nat) : FifoWorkResult :=
  let r := fifoWorkAux regs chans 0 sched0
  { r with ret := if r.ret ≠ 0 then 1 else 0 }

/-- One observable action of `dw_dma_irq_handler`, in program order. -/
inductive DwEvent where
  | irqDisable : DwEvent
  | irqClear : DwEvent
  | irqEnable : DwEvent
  | readReg : Nat → DwEvent
  | writeReg : Nat → Nat → DwEvent
  | callback : Nat → Nat → Nat → DwEvent
deriving DecidableEq

/-- The dispatch loop of `dw_dma_irq_handler`: for every channel that is
not `FREE` and has a registered callback, mask its block-complete
interrupt and invoke the callback (`callback i f data`). -/
def irqLoop : List DmaChanData → Nat → List DwEvent
  | [], _ => []
  | c :: rest, i =>
    match c.cb with
    | some f =>
      if c.status = DMA_STATUS_FREE then irqLoop rest (i + 1)
      else
        DwEvent.writeReg DW_MASK_BLOCK (INT_MASK i) ::
        DwEvent.callback i f c.cb_data :: irqLoop rest (i + 1)
    | none => irqLoop rest (i + 1)

/-- `dw_dma_irq_handler` as its event trace: disable the device interrupt
line, read the aggregate block-complete status register, dispatch (only if
the status was nonzero), then clear and re-enable the interrupt line. -/
def dw_dma_irq_handler (regs : Nat → Nat) (chans : List DmaChanData) :
    List DwEvent :=
  DwEvent.irqDisable :: DwEvent.readReg DW_STATUS_BLOCK ::
    ((if regs DW_STATUS_BLOCK = 0 then [] else irqLoop chans 0) ++
      [DwEvent.irqClear, DwEvent.irqEnable])

/-- The channel indices of the callback events of a trace, in order. -/
def cbChans (tr : List DwEvent) : List Nat :=
  tr.filterMap fun e =>
    match e with
    | DwEvent.callback i _ _ => some i
    | _ => none

/-- Decides that every callback event of a trace is immediately preceded
by the write that masks that channel's block-complete interrupt. -/
def wellMasked : List DwEvent → Bool
  | [] => true
  | DwEvent.writeReg a v :: DwEvent.callback i _ _ :: rest =>
    a == DW_MASK_BLOCK && v == INT_MASK i && wellMasked rest
  | DwEvent.callback _ _ _ :: _ => false
  | _ :: rest => wellMasked rest

/- Bit-level helper lemmas about the `Nat` encodings of the 32-bit register
and control words. -/

theorem lor_land_self (x m : Nat) : (x ||| m) &&& m = m := by
  apply Nat.eq_of_testBit_eq
  intro i
  simp only [Nat.testBit_and, Nat.testBit_or]
  cases m.testBit i <;> simp

theorem lor_land_of_land_eq (x f a : Nat) (h : f &&& a = a) :
    (x ||| f) &&& a = a := by
  apply Nat.eq_of_testBit_eq
  intro i
  have hh : (f.testBit i && a.testBit i) = a.testBit i := by
    rw [← Nat.testBit_and, h]
  simp only [Nat.testBit_and, Nat.testBit_or]
  cases ha : a.testBit i
  · simp
  · rw [ha, Bool.and_true] at hh
    simp [hh]

theorem testBit_false_of_lt_32 (m i : Nat) (hm : m < 2 ^ 32) (hi : 32 ≤ i) :
    m.testBit i = false :=
  Nat.testBit_lt_two_pow
    (lt_of_lt_of_le hm (Nat.pow_le_pow_right (by omega) hi))

theorem clearBits_testBit (x m i : Nat) (hm : m < 2 ^ 32) :
    (clearBits 32 x m).testBit i =
      (x.testBit i && !m.testBit i && decide (i < 32)) := by
  unfold clearBits maskW
  simp only [Nat.testBit_and, Nat.testBit_xor, Nat.testBit_two_pow_sub_one]
  by_cases h : i < 32
  · simp [h]
  · simp [h, testBit_false_of_lt_32 m i hm (by omega)]

theorem clearBits_land_self (x m : Nat) (hm : m < 2 ^ 32) :
    clearBits 32 x m &&& m = 0 := by
  apply Nat.eq_of_testBit_eq
  intro i
  simp only [Nat.testBit_and, Nat.zero_testBit, clearBits_testBit x m i hm]
  cases m.testBit i <;> simp

theorem clearBits_land_disjoint (x m a : Nat) (hm : m < 2 ^ 32)
    (ha : a < 2 ^ 32) (hma : m &&& a = 0) :
    clearBits 32 x m &&& a = x &&& a := by
  apply Nat.eq_of_testBit_eq
  intro i
  have hdisj : (m.testBit i && a.testBit i) = false := by
    rw [← Nat.testBit_and, hma, Nat.zero_testBit]
  simp only [Nat.testBit_and, clearBits_testBit x m i hm]
  cases hai : a.testBit i
  · simp
  · rw [hai, Bool.and_true] at hdisj
    have hi : i < 32 := by
      by_contra hge
      have := testBit_false_of_lt_32 a i ha (by omega)
      rw [this] at hai
      exact Bool.false_ne_true hai
    simp [hdisj, hi]

theorem updateBits32_self (v m : Nat) (hv : v < 2 ^ 32) (hm : m < 2 ^ 32) :
    updateBits32 v m m = v ||| m := by
  unfold updateBits32
  have hmm : m &&& m = m := by
    apply Nat.eq_of_testBit_eq
    intro i
    simp [Nat.testBit_and]
  rw [hmm]
  apply Nat.eq_of_testBit_eq
  intro i
  simp only [Nat.testBit_or, clearBits_testBit v m i hm]
  cases hmi : m.testBit i
  · by_cases hi : i < 32
    · simp [hi]
    · simp [hi, testBit_false_of_lt_32 v i hv (by omega)]
  · simp

theorem ne_zero_of_testBit (x i : Nat) (h : x.testBit i = true) : x ≠ 0 := by
  intro h0
  rw [h0, Nat.zero_testBit] at h
  exact Bool.false_ne_true h

/- Characterization of the `channel_get` scan. -/

theorem channelGetAux_none (l : List DmaChanData) (i0 : Nat)
    (h : ∀ c ∈ l, c.status ≠ DMA_STATUS_FREE) :
    channelGetAux l i0 = ⟨l, [], -19⟩ := by
  induction l generalizing i0 with
  | nil => rfl
  | cons c rest ih =>
    have hc : c.status ≠ DMA_STATUS_FREE := h c (List.mem_cons_self c rest)
    have hrest : ∀ x ∈ rest, x.status ≠ DMA_STATUS_FREE :=
      fun x hx => h x (List.mem_cons_of_mem c hx)
    unfold channelGetAux
    by_cases hd : c.status = DMA_STATUS_DRAINING
    · simp [hd, ih (i0 + 1) hrest]
    · simp [hd, hc, ih (i0 + 1) hrest]

theorem channelGetAux_found (l : List DmaChanData) (i0 j : Nat)
    (c : DmaChanData) (hj : l[j]? = some c)
    (hfree : c.status = DMA_STATUS_FREE)
    (hbefore : ∀ k, k < j → ∀ ck, l[k]? = some ck →
      ck.status ≠ DMA_STATUS_FREE) :
    channelGetAux l i0 =
      ⟨l.set j { c with status := DMA_STATUS_IDLE },
       clearWrites (i0 + j), Int.ofNat (i0 + j)⟩ := by
  induction l generalizing i0 j with
  | nil => simp at hj
  | cons c0 rest ih =>
    cases j with
    | zero =>
      have hc0 : c0 = c := by simpa using hj
      subst hc0
      have hnd : ¬ c0.status = DMA_STATUS_DRAINING := by
        rw [hfree]
        decide
      unfold channelGetAux
      simp [hnd, hfree, DMA_STATUS_FREE, DMA_STATUS_DRAINING]
    | succ j' =>
      have hj' : rest[j']? = some c := by simpa using hj
      have hb' : ∀ k, k < j' → ∀ ck, rest[k]? = some ck →
          ck.status ≠ DMA_STATUS_FREE := by
        intro k hk ck hck
        exact hbefore (k + 1) (by omega) ck (by simpa using hck)
      have hc0 : c0.status ≠ DMA_STATUS_FREE :=
        hbefore 0 (by omega) c0 (by simp)
      have harith : i0 + 1 + j' = i0 + (j' + 1) := by omega
      unfold channelGetAux
      by_cases hd : c0.status = DMA_STATUS_DRAINING
      · simp [hd, ih (i0 + 1) j' hj' hb', harith, List.set]
      · simp [hd, hc0, ih (i0 + 1) j' hj' hb', harith, List.set]

/-- C1: `dw_dma_channel_get` scans the pool in ascending index order, never
returns a slot in `DRAINING`, claims the first `FREE` slot by setting it to
`IDLE` and writing the five interrupt-clear registers (transfer, block,
source-transaction, destination-transaction, error) with the channel's bit
before returning its index, and returns `-ENODEV` (no channel available)
if and only if no slot is `FREE`. -/
theorem C1_channel_get_spec (chans : List DmaChanData) :
    ((dw_dma_channel_get chans).ret = -19 ↔
      ∀ c ∈ chans, c.status ≠ DMA_STATUS_FREE) ∧
    ((dw_dma_channel_get chans).ret = -19 ∨
      ∃ i : Nat, (dw_dma_channel_get chans).ret = Int.ofNat i ∧
        i < chans.length) ∧
    (∀ i : Nat, (dw_dma_channel_get chans).ret = Int.ofNat i →
      ∃ c, chans[i]? = some c ∧ c.status = DMA_STATUS_FREE ∧
        (∀ j, j < i → ∀ cj, chans[j]? = some cj →
          cj.status ≠ DMA_STATUS_FREE) ∧
        (dw_dma_channel_get chans).chans[i]? =
          some { c with status := DMA_STATUS_IDLE } ∧
        (∀ j, j ≠ i → (dw_dma_channel_get chans).chans[j]? = chans[j]?) ∧
        (dw_dma_channel_get chans).writes = clearWrites i) := by
  classical
  by_cases hall : ∀ c ∈ chans, c.status ≠ DMA_STATUS_FREE
  · have heq : dw_dma_channel_get chans = ⟨chans, [], -19⟩ :=
      channelGetAux_none chans 0 hall
    refine ⟨?_, ?_, ?_⟩
    · rw [heq]
      exact ⟨fun _ => hall, fun _ => rfl⟩
    · left
      rw [heq]
    · intro i hi
      rw [heq] at hi
      simp at hi
  · have hP : ∃ j : Nat, ∃ cj : DmaChanData, chans[j]? = some cj ∧
        cj.status = DMA_STATUS_FREE := by
      push_neg at hall
      obtain ⟨c, hc, hcf⟩ := hall
      obtain ⟨j, hj⟩ := List.getElem?_of_mem hc
      exact ⟨j, c, hj, hcf⟩
    obtain ⟨cj, hj, hjf⟩ := Nat.find_spec hP
    have hbefore : ∀ k, k < Nat.find hP → ∀ ck, chans[k]? = some ck →
        ck.status ≠ DMA_STATUS_FREE := by
      intro k hk ck hck hckf
      exact Nat.find_min hP hk ⟨ck, hck, hckf⟩
    have hlen : Nat.find hP < chans.length := by
      by_contra hge
      rw [List.getElem?_eq_none (by omega)] at hj
      exact Option.noConfusion hj
    have heq : dw_dma_channel_get chans =
        ⟨chans.set (Nat.find hP) { cj with status := DMA_STATUS_IDLE },
         clearWrites (Nat.find hP), Int.ofNat (Nat.find hP)⟩ := by
      have := channelGetAux_found chans 0 (Nat.find hP) cj hj hjf hbefore
      simpa using this
    refine ⟨?_, ?_, ?_⟩
    · rw [heq]
      constructor
      · intro habs
        simp at habs
      · intro habs
        exact absurd hjf
          (habs cj (List.mem_iff_getElem?.mpr ⟨Nat.find hP, hj⟩))
    · right
      exact ⟨Nat.find hP, by rw [heq], hlen⟩
    · intro i hi
      rw [heq] at hi
      have hij : i = Nat.find hP := by
        simp at hi
        omega
      subst hij
      refine ⟨cj, hj, hjf, hbefore, ?_, ?_, ?_⟩
      · rw [heq]
        simp [List.getElem?_set_self hlen]
      · intro j hjne
        rw [heq]
        simp [List.getElem?_set_ne (by omega : Nat.find hP ≠ j)]
      · rw [heq]

/-- A two-slot pool whose channel 0 is draining and whose channel 1 is
free, used to instantiate `C1_channel_get_spec`. -/
def poolC1 : List DmaChanData :=
  [{ freshChan with status := DMA_STATUS_DRAINING }, freshChan]

/-- Witness for `C1_channel_get_spec`: on `poolC1` the scan skips the
draining slot 0, claims slot 1 and performs the five clear writes for
channel 1. -/
theorem C1_channel_get_witness :
    ∃ c, poolC1[1]? = some c ∧ c.status = DMA_STATUS_FREE ∧
      (∀ j, j < 1 → ∀ cj, poolC1[j]? = some cj →
        cj.status ≠ DMA_STATUS_FREE) ∧
      (dw_dma_channel_get poolC1).chans[1]? =
        some { c with status := DMA_STATUS_IDLE } ∧
      (∀ j, j ≠ 1 → (dw_dma_channel_get poolC1).chans[j]? = poolC1[j]?) ∧
      (dw_dma_channel_get poolC1).writes = clearWrites 1 :=
  (C1_channel_get_spec poolC1).2.2 1 (by decide)

/-- A configured channel: `IDLE`, a one-descriptor chain attached at
address 4096, a registered callback. -/
def chanWithChain : DmaChanData :=
  { status := DMA_STATUS_IDLE, lli := some (4096, [⟨0, 0, 0, 0, 0⟩]),
    desc_count := 1, cfg_lo := 0, cfg_hi := 0, cb := some 7, cb_data := 5 }

/-- C6 counterexample: releasing a configured channel leaves it in `FREE`
state with its descriptor chain still attached, so the claimed invariant
"a channel in Free state has no attached chain" is violated right after
`dw_dma_channel_put`. -/
theorem C6_channel_put_counterexample :
    (dw_dma_channel_put chanWithChain).status = DMA_STATUS_FREE ∧
    (dw_dma_channel_put chanWithChain).lli ≠ none := by
  decide

/-- C6 amended: `dw_dma_channel_put` resets the state to `FREE` and clears
the callback function pointer, but leaves the attached descriptor chain,
the callback data and the descriptor count in place; a `FREE` channel may
therefore still have a chain attached. -/
theorem C6_channel_put_amended (ch : DmaChanData) :
    (dw_dma_channel_put ch).status = DMA_STATUS_FREE ∧
    (dw_dma_channel_put ch).cb = none ∧
    (dw_dma_channel_put ch).lli = ch.lli ∧
    (dw_dma_channel_put ch).cb_data = ch.cb_data ∧
    (dw_dma_channel_put ch).desc_count = ch.desc_count := by
  simp [dw_dma_channel_put]

/-- C8: `dw_dma_stop` performs exactly one `update_bits` on the channel's
config-low register that sets the suspend bit and leaves every other bit
unchanged (`v ||| SUSPEND`); `dw_dma_drain` performs exactly one
`update_bits` that sets both the suspend and the drain bits; both set the
channel state to `DRAINING`, schedule the drain poller with delay 1 and
return 0. -/
theorem C8_stop_drain_spec (channel : Nat) (ch : DmaChanData) (v : Nat)
    (hv : v < 2 ^ 32) :
    (dw_dma_stop channel ch).chan =
      { ch with status := DMA_STATUS_DRAINING } ∧
    (dw_dma_stop channel ch).updates =
      [(DW_CFG_LOW channel, DW_CFG_CH_SUSPEND, DW_CFG_CH_SUSPEND)] ∧
    updateBits32 v DW_CFG_CH_SUSPEND DW_CFG_CH_SUSPEND =
      v ||| DW_CFG_CH_SUSPEND ∧
    (dw_dma_stop channel ch).delay = 1 ∧
    (dw_dma_stop channel ch).ret = 0 ∧
    (dw_dma_drain channel ch).chan =
      { ch with status := DMA_STATUS_DRAINING } ∧
    (dw_dma_drain channel ch).updates =
      [(DW_CFG_LOW channel, DW_CFG_CH_SUSPEND ||| DW_CFG_CH_DRAIN,
        DW_CFG_CH_SUSPEND ||| DW_CFG_CH_DRAIN)] ∧
    updateBits32 v (DW_CFG_CH_SUSPEND ||| DW_CFG_CH_DRAIN)
        (DW_CFG_CH_SUSPEND ||| DW_CFG_CH_DRAIN) =
      v ||| (DW_CFG_CH_SUSPEND ||| DW_CFG_CH_DRAIN) ∧
    (dw_dma_drain channel ch).delay = 1 ∧
    (dw_dma_drain channel ch).ret = 0 := by
  refine ⟨rfl, rfl, ?_, rfl, rfl, rfl, rfl, ?_, rfl, rfl⟩
  · exact updateBits32_self v DW_CFG_CH_SUSPEND hv (by decide)
  · exact updateBits32_self v (DW_CFG_CH_SUSPEND ||| DW_CFG_CH_DRAIN) hv
      (by decide)

/-- Witness for `C8_stop_drain_spec` at channel 3, a configured channel
and register value 0. -/
theorem C8_stop_drain_witness :
    (0 : Nat) < 2 ^ 32 ∧
    ((dw_dma_stop 3 chanWithChain).chan =
      { chanWithChain with status := DMA_STATUS_DRAINING } ∧
    (dw_dma_stop 3 chanWithChain).updates =
      [(DW_CFG_LOW 3, DW_CFG_CH_SUSPEND, DW_CFG_CH_SUSPEND)] ∧
    updateBits32 0 DW_CFG_CH_SUSPEND DW_CFG_CH_SUSPEND =
      0 ||| DW_CFG_CH_SUSPEND ∧
    (dw_dma_stop 3 chanWithChain).delay = 1 ∧
    (dw_dma_stop 3 chanWithChain).ret = 0 ∧
    (dw_dma_drain 3 chanWithChain).chan =
      { chanWithChain with status := DMA_STATUS_DRAINING } ∧
    (dw_dma_drain 3 chanWithChain).updates =
      [(DW_CFG_LOW 3, DW_CFG_CH_SUSPEND ||| DW_CFG_CH_DRAIN,
        DW_CFG_CH_SUSPEND ||| DW_CFG_CH_DRAIN)] ∧
    updateBits32 0 (DW_CFG_CH_SUSPEND ||| DW_CFG_CH_DRAIN)
        (DW_CFG_CH_SUSPEND ||| DW_CFG_CH_DRAIN) =
      0 ||| (DW_CFG_CH_SUSPEND ||| DW_CFG_CH_DRAIN) ∧
    (dw_dma_drain 3 chanWithChain).delay = 1 ∧
    (dw_dma_drain 3 chanWithChain).ret = 0) :=
  ⟨by decide, C8_stop_drain_spec 3 chanWithChain 0 (by decide)⟩

theorem lor_land_disjoint (y m a : Nat) (h : m &&& a = 0) :
    (y ||| m) &&& a = y &&& a := by
  apply Nat.eq_of_testBit_eq
  intro i
  have hdisj : (m.testBit i && a.testBit i) = false := by
    rw [← Nat.testBit_and, h, Nat.zero_testBit]
  simp only [Nat.testBit_and, Nat.testBit_or]
  cases hai : a.testBit i
  · simp
  · rw [hai, Bool.and_true] at hdisj
    simp [hdisj]

theorem fillLli_length (base : Nat) (mem : Nat → DwLli1) :
    ∀ (l : List DmaSgElem) (k : Nat), (fillLli base mem l k).length = l.length := by
  intro l
  induction l with
  | nil => intro k; rfl
  | cons e rest ih =>
    intro k
    simp [fillLli, ih (k + 1)]

theorem fillLli_get (base : Nat) (mem : Nat → DwLli1) :
    ∀ (l : List DmaSgElem) (k j : Nat) (e : DmaSgElem), l[j]? = some e →
      (fillLli base mem l k)[j]? =
        some (if j + 1 < l.length
              then descLinked (mem (k + j)) e (lliAddr base (k + j + 1))
              else descLast (mem (k + j)) e) := by
  intro l
  induction l with
  | nil =>
    intro k j e h
    simp at h
  | cons a rest ih =>
    intro k j e h
    cases j with
    | zero =>
      have ha : a = e := by simpa using h
      subst ha
      cases rest with
      | nil => simp [fillLli]
      | cons b bs => simp [fillLli]
    | succ j' =>
      have h' : rest[j']? = some e := by simpa using h
      have hrec := ih (k + 1) j' e h'
      have harith : k + 1 + j' = k + (j' + 1) := by omega
      by_cases hlt : j' + 1 < rest.length
      · have hlt2 : j' + 1 + 1 < (a :: rest).length := by
          simp
          omega
        simp only [fillLli, List.getElem?_cons_succ]
        rw [hrec, if_pos hlt, if_pos hlt2, harith]
      · have hlt2 : ¬ (j' + 1 + 1 < (a :: rest).length) := by
          simp
          omega
        simp only [fillLli, List.getElem?_cons_succ]
        rw [hrec, if_neg hlt, if_neg hlt2, harith]

/-- C2: for a request with `N ≥ 1` segments, the populated chain built by
`dw_dma_set_config` has one descriptor per segment in segment order:
descriptor `j` carries segment `j`'s source and destination addresses;
every non-last descriptor's link pointer is the address of its immediate
successor (`lliAddr base (j+1)`) with both link-chain-enable flags set, and
the last descriptor's link pointer is the terminator 0 with both
link-chain-enable flags cleared. -/
theorem C2_chain_link_spec (ch : DmaChanData) (cfg : DmaSgConfig)
    (base : Nat) (init : Nat → DwLli1)
    (hn : 1 ≤ cfg.elem_list.length) :
    ∃ ch' arr,
      dw_dma_set_config ch cfg (some base) init = some (ch', 0) ∧
      ch'.lli = some (base, arr) ∧
      cfg.elem_list.length ≤ arr.length ∧
      ∀ j e, cfg.elem_list[j]? = some e →
        ∃ d, arr[j]? = some d ∧
          d.sar = e.src % 2 ^ 32 ∧ d.dar = e.dest % 2 ^ 32 ∧
          (j + 1 < cfg.elem_list.length →
            d.llp = lliAddr base (j + 1) ∧
            d.ctrl_lo &&& (DWC_CTLL_LLP_S_EN ||| DWC_CTLL_LLP_D_EN) =
              (DWC_CTLL_LLP_S_EN ||| DWC_CTLL_LLP_D_EN)) ∧
          (j + 1 = cfg.elem_list.length →
            d.llp = 0 ∧
            d.ctrl_lo &&& (DWC_CTLL_LLP_S_EN ||| DWC_CTLL_LLP_D_EN) = 0) := by
  refine ⟨_, _, rfl, rfl, ?_, ?_⟩
  · rw [List.length_append, fillLli_length]
    omega
  · intro j e hje
    have hjlt : j < cfg.elem_list.length := by
      by_contra hge
      rw [List.getElem?_eq_none (by omega)] at hje
      exact Option.noConfusion hje
    have hfill := fillLli_get base
      (fun k => if k = 0 then headDesc (init 0) cfg else init k)
      cfg.elem_list 0 j e hje
    have harr : (fillLli base
        (fun k => if k = 0 then headDesc (init 0) cfg else init k)
        cfg.elem_list 0 ++
        (List.range (ch.desc_count + cfg.elem_list.length -
          cfg.elem_list.length)).map
          (fun i => if cfg.elem_list.length + i = 0
            then headDesc (init 0) cfg
            else init (cfg.elem_list.length + i)))[j]? =
        (fillLli base
          (fun k => if k = 0 then headDesc (init 0) cfg else init k)
          cfg.elem_list 0)[j]? := by
      rw [List.getElem?_append, if_pos]
      rw [fillLli_length]
      exact hjlt
    rw [harr, hfill]
    by_cases hlast : j + 1 < cfg.elem_list.length
    · refine ⟨_, by rw [if_pos hlast], rfl, rfl, ?_, ?_⟩
      · intro _
        refine ⟨by simp [descLinked], ?_⟩
        simp only [descLinked]
        exact lor_land_self _ _
      · intro habs
        omega
    · have hj1 : j + 1 = cfg.elem_list.length := by omega
      refine ⟨_, by rw [if_neg hlast], rfl, rfl, ?_, ?_⟩
      · intro habs
        omega
      · intro _
        refine ⟨rfl, ?_⟩
        simp only [descLast]
        exact clearBits_land_self _ _ (by decide)

/-- The all-zero descriptor. -/
def zeroLli : DwLli1 := ⟨0, 0, 0, 0, 0⟩

/-- Allocation whose uninitialized memory happens to be zeroed. -/
def zeroInit : Nat → DwLli1 := fun _ => zeroLli

/-- A two-segment memory-to-device request. -/
def cfgM2D2 : DmaSgConfig :=
  { direction := DMA_DIR_MEM_TO_DEV, src_width := 2, dest_width := 2,
    elem_list := [⟨256, 512⟩, ⟨768, 512⟩] }

/-- Witness for `C2_chain_link_spec`: the two-segment request on a fresh
channel. -/
theorem C2_chain_link_witness :
    ∃ ch' arr,
      dw_dma_set_config freshChan cfgM2D2 (some 4096) zeroInit =
        some (ch', 0) ∧
      ch'.lli = some (4096, arr) ∧
      cfgM2D2.elem_list.length ≤ arr.length ∧
      ∀ j e, cfgM2D2.elem_list[j]? = some e →
        ∃ d, arr[j]? = some d ∧
          d.sar = e.src % 2 ^ 32 ∧ d.dar = e.dest % 2 ^ 32 ∧
          (j + 1 < cfgM2D2.elem_list.length →
            d.llp = lliAddr 4096 (j + 1) ∧
            d.ctrl_lo &&& (DWC_CTLL_LLP_S_EN ||| DWC_CTLL_LLP_D_EN) =
              (DWC_CTLL_LLP_S_EN ||| DWC_CTLL_LLP_D_EN)) ∧
          (j + 1 = cfgM2D2.elem_list.length →
            d.llp = 0 ∧
            d.ctrl_lo &&& (DWC_CTLL_LLP_S_EN ||| DWC_CTLL_LLP_D_EN) = 0) :=
  C2_chain_link_spec freshChan cfgM2D2 4096 zeroInit (by decide)

/-- C10: `dw_dma_set_config` adds the request's segment count onto the
channel's stored `desc_count` without resetting it, and sizes the
allocated chain to that running total, so the allocation has exactly as
many descriptors as the request has segments precisely when the channel's
descriptor count was zero beforehand. -/
theorem C10_desc_count_accumulates (ch : DmaChanData) (cfg : DmaSgConfig)
    (base : Nat) (init : Nat → DwLli1) :
    ∃ ch' arr,
      dw_dma_set_config ch cfg (some base) init = some (ch', 0) ∧
      ch'.desc_count = ch.desc_count + cfg.elem_list.length ∧
      ch'.lli = some (base, arr) ∧
      arr.length = ch.desc_count + cfg.elem_list.length ∧
      (arr.length = cfg.elem_list.length ↔ ch.desc_count = 0) := by
  refine ⟨_, _, rfl, rfl, rfl, ?_, ?_⟩
  · rw [List.length_append, fillLli_length]
    simp only [List.length_map, List.length_range]
    omega
  · rw [List.length_append, fillLli_length]
    simp only [List.length_map, List.length_range]
    omega

theorem headDesc_flag (d0 : DwLli1) (cfg : DmaSgConfig) (a : Nat)
    (h : dirCtlFlags cfg.direction &&& a = a) :
    (headDesc d0 cfg).ctrl_lo &&& a = a := by
  simp only [headDesc]
  exact lor_land_of_land_eq _ _ _ h

theorem descLinked_flag (d : DwLli1) (e : DmaSgElem) (nx a : Nat)
    (hdisj : (DWC_CTLL_LLP_S_EN ||| DWC_CTLL_LLP_D_EN) &&& a = 0)
    (h : d.ctrl_lo &&& a = a) :
    (descLinked d e nx).ctrl_lo &&& a = a := by
  simp only [descLinked]
  rw [lor_land_disjoint _ _ _ hdisj, h]

theorem descLast_flag (d : DwLli1) (e : DmaSgElem) (a : Nat)
    (hdisj : (DWC_CTLL_LLP_S_EN ||| DWC_CTLL_LLP_D_EN) &&& a = 0)
    (ha : a < 2 ^ 32) (h : d.ctrl_lo &&& a = a) :
    (descLast d e).ctrl_lo &&& a = a := by
  simp only [descLast]
  rw [clearBits_land_disjoint _ _ _ (by decide) ha hdisj, h]

/-- The chain attached by a concrete `dw_dma_set_config` call: fresh
channel, two-segment memory-to-device request, allocation at 4096 whose
uninitialized memory is zeroed. -/
def c3arr : List DwLli1 :=
  match dw_dma_set_config freshChan cfgM2D2 (some 4096) zeroInit with
  | some (ch', _) =>
    match ch'.lli with
    | some (_, arr) => arr
    | none => []
  | none => []

/-- C3 counterexample: in the chain built for a two-segment mem-to-device
request it is not the case that every descriptor has the source-increment
and destination-fixed flags set; the addressing flags are written only
into the first descriptor, so descriptor 1 (whose allocation-time contents
were zero) has neither. -/
theorem C3_counterexample :
    ¬ (∀ d ∈ c3arr, d.ctrl_lo &&& DWC_CTLL_SRC_INC ≠ 0 ∧
        d.ctrl_lo &&& DWC_CTLL_DST_FIX ≠ 0) := by
  decide

/-- C3 amended: for a mem-to-device request of any segment count `N ≥ 1`,
`dw_dma_set_config` sets the source-increment and destination-fixed
addressing flags on the first descriptor only; descriptors after the first
keep whatever addressing flags their allocation-time contents had. -/
theorem C3_mem_to_dev_amended (ch : DmaChanData) (cfg : DmaSgConfig)
    (base : Nat) (init : Nat → DwLli1)
    (hdir : cfg.direction = DMA_DIR_MEM_TO_DEV)
    (hne : cfg.elem_list ≠ []) :
    ∃ ch' arr d,
      dw_dma_set_config ch cfg (some base) init = some (ch', 0) ∧
      ch'.lli = some (base, arr) ∧
      arr[0]? = some d ∧
      d.ctrl_lo &&& DWC_CTLL_SRC_INC = DWC_CTLL_SRC_INC ∧
      d.ctrl_lo &&& DWC_CTLL_DST_FIX = DWC_CTLL_DST_FIX := by
  have hpos : 0 < cfg.elem_list.length := List.length_pos.mpr hne
  have hje : ∃ e : DmaSgElem, cfg.elem_list[0]? = some e := by
    cases hl : cfg.elem_list with
    | nil => exact absurd hl hne
    | cons e rest => exact ⟨e, by simp⟩
  obtain ⟨e, he⟩ := hje
  have hdirflags : dirCtlFlags cfg.direction =
      DWC_CTLL_SRC_INC ||| DWC_CTLL_DST_FIX := by
    rw [hdir]
    decide
  have hsrc : (headDesc (init 0) cfg).ctrl_lo &&& DWC_CTLL_SRC_INC =
      DWC_CTLL_SRC_INC := by
    apply headDesc_flag
    rw [hdirflags]
    decide
  have hdst : (headDesc (init 0) cfg).ctrl_lo &&& DWC_CTLL_DST_FIX =
      DWC_CTLL_DST_FIX := by
    apply headDesc_flag
    rw [hdirflags]
    decide
  refine ⟨_, _,
    (if 0 + 1 < cfg.elem_list.length
     then descLinked (headDesc (init 0) cfg) e (lliAddr base (0 + 0 + 1))
     else descLast (headDesc (init 0) cfg) e), rfl, rfl, ?_, ?_, ?_⟩
  · rw [List.getElem?_append, if_pos (by rw [fillLli_length]; exact hpos)]
    exact fillLli_get base _ cfg.elem_list 0 0 e he
  · by_cases hlt : 0 + 1 < cfg.elem_list.length
    · rw [if_pos hlt]
      exact descLinked_flag _ _ _ _ (by decide) hsrc
    · rw [if_neg hlt]
      exact descLast_flag _ _ _ (by decide) (by decide) hsrc
  · by_cases hlt : 0 + 1 < cfg.elem_list.length
    · rw [if_pos hlt]
      exact descLinked_flag _ _ _ _ (by decide) hdst
    · rw [if_neg hlt]
      exact descLast_flag _ _ _ (by decide) (by decide) hdst

/-- Witness for `C3_mem_to_dev_amended` at the concrete two-segment
mem-to-device request. -/
theorem C3_mem_to_dev_witness :
    ∃ ch' arr d,
      dw_dma_set_config freshChan cfgM2D2 (some 4096) zeroInit =
        some (ch', 0) ∧
      ch'.lli = some (4096, arr) ∧
      arr[0]? = some d ∧
      d.ctrl_lo &&& DWC_CTLL_SRC_INC = DWC_CTLL_SRC_INC ∧
      d.ctrl_lo &&& DWC_CTLL_DST_FIX = DWC_CTLL_DST_FIX :=
  C3_mem_to_dev_amended freshChan cfgM2D2 4096 zeroInit rfl (by decide)

/-- A one-segment memory-to-memory request. -/
def cfgM2M1 : DmaSgConfig :=
  { direction := DMA_DIR_MEM_TO_MEM, src_width := 2, dest_width := 2,
    elem_list := [⟨256, 512⟩] }

/-- C7: when the chain allocation fails (`rmalloc` returns NULL),
`dw_dma_set_config` has no defined result at all — the embedded call
aborts on the unchecked NULL dereference (`none`) instead of returning an
out-of-memory error code; the source contains no error path for this
case. -/
theorem C7_alloc_failure_no_error :
    dw_dma_set_config freshChan cfgM2M1 none zeroInit = none := rfl

/-- C4: `dw_dma_start` on a channel with no attached chain (`lli` NULL)
has no defined result — the embedded call aborts on the unchecked NULL
dereference of `lli->sar` (`none`); the source contains no `NotConfigured`
error path and its only return statement yields 0. -/
theorem C4_start_unconfigured :
    freshChan.lli = none ∧ dw_dma_start 0 freshChan = none :=
  ⟨rfl, rfl⟩

/-- An 8-slot pool with every channel free (no channel draining). -/
def freePool : List DmaChanData := List.replicate 8 freshChan

/-- A one-slot pool whose only channel is draining. -/
def drainPool : List DmaChanData :=
  [{ freshChan with status := DMA_STATUS_DRAINING }]

/-- A register file reading 0 everywhere. -/
def regsZero : Nat → Nat := fun _ => 0

/-- A register file in which every channel's config-low register reports
FIFO empty. -/
def regsFifoEmpty : Nat → Nat := fun _ => DW_CFG_CH_FIFO_EMPTY

/-- C5: the local variable `schedule` of `dw_dma_fifo_work` is read
without ever being initialized.  With zero draining channels the poller
performs no register reads and no register writes, but its return value is
whatever garbage `schedule` held on entry (here: entry value 1 gives
return 1, entry value 0 gives return 0), not the claimed constant 0; the
same happens when the only draining channel finishes in this pass. -/
theorem C5_uninitialized_schedule :
    (dw_dma_fifo_work regsZero freePool 1).reads = [] ∧
    (dw_dma_fifo_work regsZero freePool 1).updates = [] ∧
    (dw_dma_fifo_work regsZero freePool 1).ret = 1 ∧
    (dw_dma_fifo_work regsZero freePool 0).ret = 0 ∧
    (dw_dma_fifo_work regsFifoEmpty drainPool 1).chans =
      [{ freshChan with status := DMA_STATUS_FREE }] ∧
    (dw_dma_fifo_work regsFifoEmpty drainPool 1).ret = 1 := by
  decide

theorem cbChans_irqLoop_lb :
    ∀ (l : List DmaChanData) (i : Nat), ∀ j ∈ cbChans (irqLoop l i ++
      [DwEvent.irqClear, DwEvent.irqEnable]), i ≤ j := by
  intro l
  induction l with
  | nil =>
    intro i j hj
    simp [irqLoop, cbChans] at hj
  | cons c rest ih =>
    intro i j hj
    cases hcb : c.cb with
    | none =>
      simp only [irqLoop, hcb] at hj
      exact Nat.le_of_succ_le (ih (i + 1) j hj)
    | some f =>
      simp only [irqLoop, hcb] at hj
      by_cases hst : c.status = DMA_STATUS_FREE
      · rw [if_pos hst] at hj
        exact Nat.le_of_succ_le (ih (i + 1) j hj)
      · rw [if_neg hst] at hj
        simp only [cbChans, List.cons_append, List.filterMap_cons] at hj
        simp at hj
        rcases hj with hj | hj
        · omega
        · have := ih (i + 1) j (by simpa [cbChans] using hj)
          omega

theorem cbChans_irqLoop_sorted :
    ∀ (l : List DmaChanData) (i : Nat),
      List.Pairwise (· < ·) (cbChans (irqLoop l i ++
        [DwEvent.irqClear, DwEvent.irqEnable])) := by
  intro l
  induction l with
  | nil =>
    intro i
    simp [irqLoop, cbChans]
  | cons c rest ih =>
    intro i
    cases hcb : c.cb with
    | none =>
      simp only [irqLoop, hcb]
      exact ih (i + 1)
    | some f =>
      simp only [irqLoop, hcb]
      by_cases hst : c.status = DMA_STATUS_FREE
      · rw [if_pos hst]
        exact ih (i + 1)
      · rw [if_neg hst]
        simp only [cbChans, List.cons_append, List.filterMap_cons]
        refine List.Pairwise.cons ?_ ?_
        · intro j hj
          have := cbChans_irqLoop_lb rest (i + 1) j (by simpa [cbChans] using hj)
          omega
        · exact ih (i + 1)

theorem wellMasked_irqLoop :
    ∀ (l : List DmaChanData) (i : Nat),
      wellMasked (irqLoop l i ++ [DwEvent.irqClear, DwEvent.irqEnable]) =
        true := by
  intro l
  induction l with
  | nil =>
    intro i
    rfl
  | cons c rest ih =>
    intro i
    cases hcb : c.cb with
    | none =>
      simp only [irqLoop, hcb]
      exact ih (i + 1)
    | some f =>
      simp only [irqLoop, hcb]
      by_cases hst : c.status = DMA_STATUS_FREE
      · rw [if_pos hst]
        exact ih (i + 1)
      · rw [if_neg hst]
        simp only [List.cons_append, wellMasked, List.append_eq]
        rw [ih (i + 1)]
        simp

/-- C9: when the aggregate block-complete status register reads zero,
`dw_dma_irq_handler`'s trace is exactly disable, read, clear, enable — no
callbacks and no mask writes — and in every case the trace ends by
clearing and re-enabling the device interrupt line; when the status is
nonzero, the callbacks of distinct channels occur in strictly ascending
channel-index order, and every callback event is immediately preceded by
the write masking that channel's block-complete interrupt. -/
theorem C9_irq_handler_spec (regs : Nat → Nat) (chans : List DmaChanData) :
    (regs DW_STATUS_BLOCK = 0 →
      dw_dma_irq_handler regs chans =
        [DwEvent.irqDisable, DwEvent.readReg DW_STATUS_BLOCK,
         DwEvent.irqClear, DwEvent.irqEnable]) ∧
    (∃ pre, dw_dma_irq_handler regs chans =
      pre ++ [DwEvent.irqClear, DwEvent.irqEnable]) ∧
    List.Pairwise (· < ·) (cbChans (dw_dma_irq_handler regs chans)) ∧
    wellMasked (dw_dma_irq_handler regs chans) = true := by
  refine ⟨?_, ?_, ?_, ?_⟩
  · intro h0
    simp [dw_dma_irq_handler, h0]
  · by_cases h0 : regs DW_STATUS_BLOCK = 0
    · exact ⟨[DwEvent.irqDisable, DwEvent.readReg DW_STATUS_BLOCK],
        by simp [dw_dma_irq_handler, h0]⟩
    · exact ⟨DwEvent.irqDisable :: DwEvent.readReg DW_STATUS_BLOCK ::
        irqLoop chans 0,
        by simp [dw_dma_irq_handler, h0]⟩
  · unfold dw_dma_irq_handler
    by_cases h0 : regs DW_STATUS_BLOCK = 0
    · rw [if_pos h0]
      simp [cbChans]
    · rw [if_neg h0]
      have hs := cbChans_irqLoop_sorted chans 0
      simpa [cbChans] using hs
  · unfold dw_dma_irq_handler
    by_cases h0 : regs DW_STATUS_BLOCK = 0
    · rw [if_pos h0]
      rfl
    · rw [if_neg h0]
      exact wellMasked_irqLoop chans 0

/-- A pool exercising the dispatch loop: channel 0 free with a stale
callback, channel 1 running with callback 11, channel 2 running without a
callback, channel 3 idle with callback 13. -/
def poolC9 : List DmaChanData :=
  [{ freshChan with cb := some 10 },
   { freshChan with status := DMA_STATUS_RUNNING, cb := some 11, cb_data := 1 },
   { freshChan with status := DMA_STATUS_RUNNING },
   { freshChan with status := DMA_STATUS_IDLE, cb := some 13, cb_data := 3 }]

/-- A register file whose block-status register reads nonzero. -/
def regsBlockSet : Nat → Nat := fun a => if a = DW_STATUS_BLOCK then 2 else 0

/-- Witness for `C9_irq_handler_spec`: a zero block status over `poolC9`
gives the bare four-event trace, and a nonzero one gives an ascending,
well-masked callback trace ending in clear and enable. -/
theorem C9_irq_handler_witness :
    dw_dma_irq_handler regsZero poolC9 =
      [DwEvent.irqDisable, DwEvent.readReg DW_STATUS_BLOCK,
       DwEvent.irqClear, DwEvent.irqEnable] ∧
    (∃ pre, dw_dma_irq_handler regsBlockSet poolC9 =
      pre ++ [DwEvent.irqClear, DwEvent.irqEnable]) ∧
    List.Pairwise (· < ·) (cbChans (dw_dma_irq_handler regsBlockSet poolC9)) ∧
    wellMasked (dw_dma_irq_handler regsBlockSet poolC9) = true :=
  ⟨(C9_irq_handler_spec regsZero poolC9).1 rfl,
   (C9_irq_handler_spec regsBlockSet poolC9).2.1,
   (C9_irq_handler_spec regsBlockSet poolC9).2.2.1,
   (C9_irq_handler_spec regsBlockSet poolC9).2.2.2⟩
